import Mathlib

/-!
Verification of the Tree-Attestation-and-NFT-Minting workflow.

Shallow embedding of:
* `uploadToIPFS.js` (the Pinata upload service),
* `index.js` (the workflow orchestrator: attest → persist UID → upload →
  read recipient → mint),
* the `ResearchNFT` ERC-1155 contract extension documented in the
  repository (per-token metadata pointer with history, global base URI).

External collaborators whose sources live outside this repository slice
(`createAttestation.js`, `mintNFTree.js`, the Pinata SDK network layer,
the chain RPC) are opaque in the source as well: the orchestrator only
observes their success-or-throw outcome.  They are embedded as outcome
oracles carried in the environment, so every theorem quantifies over all
behaviours those collaborators can exhibit.
-/

namespace TreeWorkflow

/-- JavaScript truthiness of an optional string (`!x` in JS):
`undefined` and the empty string are falsy. -/
def jsFalsyStr : Option String → Bool
  | none => true
  | some s => s = ""

/-- JavaScript string coercion used by `a + b` when `a` is `undefined`:
`undefined + "x" = "undefinedx"`. -/
def jsStringOfOpt : Option String → String
  | none => "undefined"
  | some s => s

/-! ## `uploadToIPFS.js` (src/unnamed/part_000) -/

/-- Module-level environment of `uploadToIPFS.js`: the three `process.env`
options read at module initialisation, the file system (`fs.existsSync`),
and the Pinata SDK's `pinFileToIPFS` outcome (error thrown, or the
`result.IpfsHash` content identifier) for a given file path. -/
structure PinataEnv where
  pinataApiKey : Option String
  pinataSecretApiKey : Option String
  gatewayURL : Option String
  fileExists : String → Bool
  pinFileToIPFS : String → Except String String

/-- Result of a call to `uploadToIPFS`: the returned value or thrown error,
together with the number of pinning-service network invocations made. -/
structure UploadOutcome where
  result : Except String String
  networkCalls : Nat
deriving Repr

/-- The message of the `Error` thrown when the Pinata API credentials are
missing (src/unnamed/part_000 line 24). -/
def missingCredentialsMsg : String :=
  "As chaves da API Pinata (PINATA_API_KEY e PINATA_API_SECRET) não estão configuradas no arquivo .env."

/-- The message of the `Error` thrown when the file to upload does not
exist (src/unnamed/part_000 line 29). -/
def fileNotFoundMsg (filePath : String) : String :=
  "Arquivo não encontrado: " ++ filePath

/-- Embedding of `uploadToIPFS(filePath)` from src/unnamed/part_000 lines
20–57: first the credentials guard, then the `fs.existsSync` guard, then
the single `pinata.pinFileToIPFS` network call; on success it returns
`gatewayURL + result.IpfsHash` (plain JS concatenation — when
`PINATA_GATEWAY_URL` is unset this silently yields `"undefined" + hash`). -/
def uploadToIPFS (env : PinataEnv) (filePath : String) : UploadOutcome :=
  if jsFalsyStr env.pinataApiKey || jsFalsyStr env.pinataSecretApiKey then
    ⟨.error missingCredentialsMsg, 0⟩
  else if !env.fileExists filePath then
    ⟨.error (fileNotFoundMsg filePath), 0⟩
  else
    match env.pinFileToIPFS filePath with
    | .error e => ⟨.error e, 1⟩
    | .ok hash => ⟨.ok (jsStringOfOpt env.gatewayURL ++ hash), 1⟩

/-! ## JSON serialisation used by `saveAttestationToJson` (index.js) -/

/-- Lower-case hex digit, as used by `JSON.stringify` control escapes. -/
def hexDigit (n : Nat) : String :=
  if n = 0 then "0" else if n = 1 then "1" else if n = 2 then "2"
  else if n = 3 then "3" else if n = 4 then "4" else if n = 5 then "5"
  else if n = 6 then "6" else if n = 7 then "7" else if n = 8 then "8"
  else if n = 9 then "9" else if n = 10 then "a" else if n = 11 then "b"
  else if n = 12 then "c" else if n = 13 then "d" else if n = 14 then "e"
  else "f"

/-- `JSON.stringify` escaping of one character inside a string literal. -/
def jsonEscapeChar (c : Char) : String :=
  if c = '"' then "\\\""
  else if c = '\\' then "\\\\"
  else if c = '\x08' then "\\b"
  else if c = '\x09' then "\\t"
  else if c = '\x0a' then "\\n"
  else if c = '\x0c' then "\\f"
  else if c = '\x0d' then "\\r"
  else if c.toNat < 32 then
    "\\u00" ++ hexDigit (c.toNat / 16) ++ hexDigit (c.toNat % 16)
  else String.singleton c

/-- `JSON.stringify` of a string value (quoted, escaped). -/
def jsonQuote (s : String) : String :=
  "\"" ++ String.join (s.data.map jsonEscapeChar) ++ "\""

/-- The exact byte content written by `saveAttestationToJson` for
`attestationData = \x7b name: "AttestationUID", value: attestationUID \x7d`:
`JSON.stringify(attestationData, null, 2)` — two-space indentation, keys in
insertion order (`name` before `value`), string values quoted and escaped. -/
def attestationJson (attestationUID : String) : String :=
  "\x7b\n  " ++ jsonQuote "name" ++ ": " ++ jsonQuote "AttestationUID" ++ ",\n  "
    ++ jsonQuote "value" ++ ": " ++ jsonQuote attestationUID ++ "\n\x7d"

/-! ## The orchestrator (index.js) -/

/-- One external invocation made by the main IIFE of index.js, in the order
they appear in the call trace. -/
inductive Call where
  | attest
  | writeFile (path content : String)
  | upload (path : String)
  | mint (recipient : String) (tokenId amount : Nat) (uri : String)
deriving Repr, DecidableEq

/-- Which workflow step a call belongs to. -/
inductive StepKind where
  | attestStep
  | persistStep
  | uploadStep
  | mintStep
deriving Repr, DecidableEq

def Call.stepKind : Call → StepKind
  | .attest => .attestStep
  | .writeFile _ _ => .persistStep
  | .upload _ => .uploadStep
  | .mint _ _ _ _ => .mintStep

/-- The strict step order of one workflow run, by step kind. -/
def fullStepOrder : List StepKind :=
  [StepKind.attestStep, StepKind.persistStep, StepKind.uploadStep, StepKind.mintStep]

/-- Environment of one run of index.js: the outcome of the opaque
`createAttestation()` collaborator, the outcome of `fs.writeFileSync`
(which throws on an I/O failure), the environment of the `uploadToIPFS`
module, `process.env.RECIPIENT_ADDRESS`, and the outcome of the opaque
`mintNFTree(recipient, tokenId, amount, tokenURI)` collaborator. -/
structure WorkflowEnv where
  createAttestationOutcome : Except String String
  writeFileOutcome : Except String Unit
  pinata : PinataEnv
  recipientAddress : Option String
  mintNFTreeOutcome : String → Nat → Nat → String → Except String String

/-- Observable result of one run of the main IIFE. -/
structure RunResult where
  /-- External invocations, in execution order. -/
  calls : List Call
  /-- Content of `attestation.json` after the run (`none` = file absent). -/
  fs : Option String
  /-- Whether the final "Workflow completed successfully!" line was logged. -/
  logsSuccess : Bool
  /-- The error passed to `console.error("Error in main process:", ...)`,
  if any. -/
  errorLogged : Option String
  /-- Process exit status.  The IIFE catches every error and only logs it,
  so the Node process always terminates with the default success status. -/
  exitCode : Nat

/-- The message of the `Error` thrown by index.js when `RECIPIENT_ADDRESS`
is not configured (index.js line 42). -/
def missingRecipientMsg : String :=
  "RECIPIENT_ADDRESS is not configured in the .env file."

/-- Embedding of the main async IIFE of index.js (lines 16–52), threading
the prior content of `attestation.json` (`fs0`).  Step 1 creates the
attestation; step 2 overwrites `attestation.json` with
`JSON.stringify(attestationData, null, 2)`; step 3 calls `uploadToIPFS`
on the fixed path `metadataNFTree`; step 4 reads `RECIPIENT_ADDRESS` and
throws when it is falsy; step 5 calls `mintNFTree(recipient, 2, 1,
ipfsCID)`.  Any throw lands in the catch block, which logs the error and
returns normally. -/
def runWorkflow (env : WorkflowEnv) (fs0 : Option String) : RunResult :=
  match env.createAttestationOutcome with
  | .error e => ⟨[.attest], fs0, false, some e, 0⟩
  | .ok attestationUID =>
    let content := attestationJson attestationUID
    let persistCall := Call.writeFile "attestation.json" content
    match env.writeFileOutcome with
    | .error e => ⟨[.attest, persistCall], fs0, false, some e, 0⟩
    | .ok _ =>
      let fs1 := some content
      let up := uploadToIPFS env.pinata "metadataNFTree"
      match up.result with
      | .error e => ⟨[.attest, persistCall, .upload "metadataNFTree"], fs1, false, some e, 0⟩
      | .ok ipfsCID =>
        if jsFalsyStr env.recipientAddress then
          ⟨[.attest, persistCall, .upload "metadataNFTree"], fs1, false,
            some missingRecipientMsg, 0⟩
        else
          let recipient := (env.recipientAddress).getD ""
          match env.mintNFTreeOutcome recipient 2 1 ipfsCID with
          | .error e =>
            ⟨[.attest, persistCall, .upload "metadataNFTree",
              .mint recipient 2 1 ipfsCID], fs1, false, some e, 0⟩
          | .ok _ =>
            ⟨[.attest, persistCall, .upload "metadataNFTree",
              .mint recipient 2 1 ipfsCID], fs1, true, none, 0⟩

/-! ### Concrete environments used to instantiate the theorems -/

/-- A fully configured Pinata environment whose pinning service returns
the content identifier `Qm123`. -/
def okPinataEnv : PinataEnv :=
  { pinataApiKey := some "key"
    pinataSecretApiKey := some "secret"
    gatewayURL := some "https://gw/"
    fileExists := fun _ => true
    pinFileToIPFS := fun _ => .ok "Qm123" }

/-- Like `okPinataEnv` but with `PINATA_GATEWAY_URL` unset. -/
def noGatewayEnv : PinataEnv :=
  { okPinataEnv with gatewayURL := none }

/-- Like `okPinataEnv` but with `PINATA_API_KEY` unset. -/
def noCredsEnv : PinataEnv :=
  { okPinataEnv with pinataApiKey := none }

/-- Like `okPinataEnv` but the file to upload does not exist. -/
def noFileEnv : PinataEnv :=
  { okPinataEnv with fileExists := fun _ => false }

/-- A workflow environment in which every step succeeds: attestation UID
`0xabc`, pinned content identifier `Qm123`, recipient configured. -/
def happyEnv : WorkflowEnv :=
  { createAttestationOutcome := .ok "0xabc"
    writeFileOutcome := .ok ()
    pinata := okPinataEnv
    recipientAddress := some "0xRecipient"
    mintNFTreeOutcome := fun _ _ _ _ => .ok "receipt" }

/-- Like `happyEnv` but `createAttestation()` rejects. -/
def attestFailEnv : WorkflowEnv :=
  { happyEnv with createAttestationOutcome := .error "AttestationFailed" }

/-- Like `happyEnv` but `RECIPIENT_ADDRESS` is unset. -/
def noRecipientEnv : WorkflowEnv :=
  { happyEnv with recipientAddress := none }

/-! ## The `ResearchNFT` contract (src/README.md lines 303–404)

Addresses are opaque strings, token ids and amounts are `Nat`, reverts are
`Except.error` carrying the revert reason; per Solidity semantics a
reverted call leaves the state exactly as it was.  The inherited ERC-1155
base behaviour (transfer, burn, approval) is out of scope per the
repository's own documentation; of `_mint` we keep its observable effect
here, the balance increase. -/

/-- A revert: either the `Ownable` `onlyOwner` rejection, or a
`require(..., msg)` failure carrying the message. -/
inductive ContractErr where
  | notOwner
  | revert (msg : String)
deriving Repr, DecidableEq

/-- Storage of `ResearchNFT`: owner (from `Ownable`), `_baseURI`,
`_tokenMetadata` and `_metadataHistory` mappings (Solidity default values:
empty string, empty array), and ERC-1155 balances keyed by token id and
account. -/
structure ContractState where
  owner : String
  baseURI : String
  tokenMetadata : Nat → String
  metadataHistory : Nat → List String
  balances : Nat → String → Nat

namespace ResearchNFT

/-- The constructor: `ERC1155(baseURI)`, `Ownable(msg.sender)`,
`_setBaseURI(baseURI)`; all mappings at their Solidity defaults. -/
def init (deployer baseURI : String) : ContractState :=
  { owner := deployer
    baseURI := baseURI
    tokenMetadata := fun _ => ""
    metadataHistory := fun _ => []
    balances := fun _ _ => 0 }

/-- `mint(account, id, amount, ipfsURL)` with caller `sender`:
`onlyOwner`; `require(bytes(ipfsURL).length > 0)`; `_mint` (balance
increase); `_tokenMetadata[id] = ipfsURL`; `_metadataHistory[id].push(ipfsURL)`. -/
def mint (st : ContractState) (sender account : String) (id amount : Nat)
    (ipfsURL : String) : Except ContractErr ContractState :=
  if sender ≠ st.owner then
    .error .notOwner
  else if ipfsURL = "" then
    .error (.revert "IPFS URL cannot be empty")
  else
    .ok { st with
      balances := fun i a =>
        if i = id ∧ a = account then st.balances i a + amount else st.balances i a
      tokenMetadata := fun i => if i = id then ipfsURL else st.tokenMetadata i
      metadataHistory := fun i =>
        if i = id then st.metadataHistory i ++ [ipfsURL] else st.metadataHistory i }

/-- `updateTokenMetadata(id, newIpfsURL)` with caller `sender`:
`onlyOwner`; `require(bytes(newIpfsURL).length > 0)`;
`require(bytes(_tokenMetadata[id]).length > 0, "Token ID does not exist")`;
push to history, update current metadata. -/
def updateTokenMetadata (st : ContractState) (sender : String) (id : Nat)
    (newIpfsURL : String) : Except ContractErr ContractState :=
  if sender ≠ st.owner then
    .error .notOwner
  else if newIpfsURL = "" then
    .error (.revert "IPFS URL cannot be empty")
  else if st.tokenMetadata id = "" then
    .error (.revert "Token ID does not exist")
  else
    .ok { st with
      metadataHistory := fun i =>
        if i = id then st.metadataHistory i ++ [newIpfsURL] else st.metadataHistory i
      tokenMetadata := fun i => if i = id then newIpfsURL else st.tokenMetadata i }

/-- `updateBaseURI(newBaseURI)` with caller `sender`: `onlyOwner`;
`_setBaseURI(newBaseURI)`. -/
def updateBaseURI (st : ContractState) (sender : String) (newBaseURI : String) :
    Except ContractErr ContractState :=
  if sender ≠ st.owner then
    .error .notOwner
  else
    .ok { st with baseURI := newBaseURI }

/-- One external transaction against the contract. -/
inductive Op where
  | mint (sender account : String) (id amount : Nat) (ipfsURL : String)
  | updateTokenMetadata (sender : String) (id : Nat) (newIpfsURL : String)
  | updateBaseURI (sender newBaseURI : String)

/-- Run one transaction with Solidity revert semantics: a reverted call
leaves the state unchanged. -/
def applyOp (st : ContractState) (op : Op) : ContractState :=
  match op with
  | .mint sender account id amount url =>
    match mint st sender account id amount url with
    | .ok st' => st'
    | .error _ => st
  | .updateTokenMetadata sender id url =>
    match updateTokenMetadata st sender id url with
    | .ok st' => st'
    | .error _ => st
  | .updateBaseURI sender url =>
    match updateBaseURI st sender url with
    | .ok st' => st'
    | .error _ => st

/-- States reachable from a fresh deployment by any sequence of
transactions (successful or reverted). -/
inductive Reachable : ContractState → Prop where
  | init (deployer baseURI : String) : Reachable (init deployer baseURI)
  | step (st : ContractState) (op : Op) :
      Reachable st → Reachable (applyOp st op)

/-- A token class is in the `Minted` state once its history is non-empty. -/
def Minted (st : ContractState) (id : Nat) : Prop :=
  st.metadataHistory id ≠ []

/-- The per-class metadata pointer invariant: a never-minted class has the
default empty current URI; a minted class has a non-empty current URI and
its history ends with the current URI. -/
def MetadataInv (st : ContractState) : Prop :=
  ∀ id : Nat,
    (st.metadataHistory id = [] → st.tokenMetadata id = "") ∧
    (st.metadataHistory id ≠ [] →
      (st.metadataHistory id).getLast? = some (st.tokenMetadata id) ∧
      st.tokenMetadata id ≠ "")

/-- Inversion of a successful `mint`: the caller is the owner, the URI is
non-empty, and the new state is the recorded update. -/
theorem mint_ok_iff {st : ContractState} {sender account : String} {id amount : Nat}
    {url : String} {st' : ContractState}
    (h : mint st sender account id amount url = .ok st') :
    sender = st.owner ∧ url ≠ "" ∧
    st' = { st with
      balances := fun i a =>
        if i = id ∧ a = account then st.balances i a + amount else st.balances i a
      tokenMetadata := fun i => if i = id then url else st.tokenMetadata i
      metadataHistory := fun i =>
        if i = id then st.metadataHistory i ++ [url] else st.metadataHistory i } := by
  unfold mint at h
  split at h
  · exact absurd h (by simp)
  · split at h
    · exact absurd h (by simp)
    · rename_i hs hu
      refine ⟨not_not.mp hs, hu, ?_⟩
      exact ((Except.ok.injEq _ _).mp h).symm

/-- Inversion of a successful `updateTokenMetadata`. -/
theorem update_ok_iff {st : ContractState} {sender : String} {id : Nat}
    {url : String} {st' : ContractState}
    (h : updateTokenMetadata st sender id url = .ok st') :
    sender = st.owner ∧ url ≠ "" ∧ st.tokenMetadata id ≠ "" ∧
    st' = { st with
      metadataHistory := fun i =>
        if i = id then st.metadataHistory i ++ [url] else st.metadataHistory i
      tokenMetadata := fun i => if i = id then url else st.tokenMetadata i } := by
  unfold updateTokenMetadata at h
  split at h
  · exact absurd h (by simp)
  · split at h
    · exact absurd h (by simp)
    · split at h
      · exact absurd h (by simp)
      · rename_i hs hu hm
        refine ⟨not_not.mp hs, hu, hm, ?_⟩
        exact ((Except.ok.injEq _ _).mp h).symm

/-- Every reachable contract state satisfies the metadata pointer
invariant. -/
theorem reachable_inv {st : ContractState} (h : Reachable st) : MetadataInv st := by
  induction h with
  | init d b =>
      intro id
      exact ⟨fun _ => rfl, fun hne => absurd rfl hne⟩
  | step st op hst ih =>
      cases op with
      | mint sender account id amount url =>
          show MetadataInv (applyOp st (.mint sender account id amount url))
          simp only [applyOp]
          cases hm : mint st sender account id amount url with
          | error e => exact ih
          | ok st' =>
              show MetadataInv st'
              obtain ⟨hs, hu, hst'⟩ := mint_ok_iff hm
              subst hst'
              intro j
              by_cases hj : j = id
              · subst hj
                refine ⟨fun habs => by simp at habs, fun _ => ?_⟩
                simp [List.getLast?_concat, hu]
              · simpa [hj] using ih j
      | updateTokenMetadata sender id url =>
          show MetadataInv (applyOp st (.updateTokenMetadata sender id url))
          simp only [applyOp]
          cases hm : updateTokenMetadata st sender id url with
          | error e => exact ih
          | ok st' =>
              show MetadataInv st'
              obtain ⟨hs, hu, hex, hst'⟩ := update_ok_iff hm
              subst hst'
              intro j
              by_cases hj : j = id
              · subst hj
                refine ⟨fun habs => by simp at habs, fun _ => ?_⟩
                simp [List.getLast?_concat, hu]
              · simpa [hj] using ih j
      | updateBaseURI sender url =>
          show MetadataInv (applyOp st (.updateBaseURI sender url))
          simp only [applyOp]
          cases hm : updateBaseURI st sender url with
          | error e => exact ih
          | ok st' =>
              show MetadataInv st'
              unfold updateBaseURI at hm
              split at hm
              · exact absurd hm (by simp)
              · have hst' : st' = { st with baseURI := url } :=
                  ((Except.ok.injEq _ _).mp hm).symm
                subst hst'
                intro j
                simpa using ih j

/-- A `mint` call by the owner with a non-empty URI succeeds and performs
exactly the recorded storage update. -/
theorem mint_ok (st : ContractState) (sender account : String) (id amount : Nat)
    (url : String) (hs : sender = st.owner) (hu : url ≠ "") :
    mint st sender account id amount url = .ok { st with
      balances := fun i a =>
        if i = id ∧ a = account then st.balances i a + amount else st.balances i a
      tokenMetadata := fun i => if i = id then url else st.tokenMetadata i
      metadataHistory := fun i =>
        if i = id then st.metadataHistory i ++ [url] else st.metadataHistory i } := by
  unfold mint
  rw [if_neg (by simp [hs]), if_neg hu]

/-- Any transaction leaves a class's metadata history as an extension of
what it was: the contract has no operation that shortens or deletes it. -/
theorem applyOp_history_extends (st : ContractState) (op : Op) (id : Nat) :
    ∃ t, (applyOp st op).metadataHistory id = st.metadataHistory id ++ t := by
  cases op with
  | mint sender account i amount url =>
      simp only [applyOp]
      cases hm : mint st sender account i amount url with
      | error e => exact ⟨[], by simp⟩
      | ok st' =>
          obtain ⟨_, _, hst'⟩ := mint_ok_iff hm
          subst hst'
          by_cases hj : id = i
          · subst hj
            exact ⟨[url], by simp⟩
          · exact ⟨[], by simp [hj]⟩
  | updateTokenMetadata sender i url =>
      simp only [applyOp]
      cases hm : updateTokenMetadata st sender i url with
      | error e => exact ⟨[], by simp⟩
      | ok st' =>
          obtain ⟨_, _, _, hst'⟩ := update_ok_iff hm
          subst hst'
          by_cases hj : id = i
          · subst hj
            exact ⟨[url], by simp⟩
          · exact ⟨[], by simp [hj]⟩
  | updateBaseURI sender url =>
      simp only [applyOp]
      cases hm : updateBaseURI st sender url with
      | error e => exact ⟨[], by simp⟩
      | ok st' =>
          unfold updateBaseURI at hm
          split at hm
          · exact absurd hm (by simp)
          · have hst' : st' = { st with baseURI := url } := ((Except.ok.injEq _ _).mp hm).symm
            subst hst'
            exact ⟨[], by simp⟩

end ResearchNFT

/-! ## Claims about the orchestrator and the upload service -/

/-- Claim C1: every run's external-call trace is an order-respecting
initial segment of attest → persist → upload → mint; an error in any step
prevents every later step (no rollback, the trace is never reordered);
when the recipient configuration is absent the run aborts without success
and `mintNFTree` is invoked zero times; a fully successful run performs
exactly the four external invocations in order. -/
theorem workflow_steps_in_order (env : WorkflowEnv) (fs0 : Option String) :
    (∃ rest, ((runWorkflow env fs0).calls.map Call.stepKind) ++ rest = fullStepOrder) ∧
    (∀ e, env.createAttestationOutcome = .error e →
      (runWorkflow env fs0).calls = [Call.attest]) ∧
    (∀ e, env.writeFileOutcome = .error e →
      (∀ p, Call.upload p ∉ (runWorkflow env fs0).calls) ∧
      (∀ r i a u, Call.mint r i a u ∉ (runWorkflow env fs0).calls)) ∧
    (∀ e, (uploadToIPFS env.pinata "metadataNFTree").result = .error e →
      ∀ r i a u, Call.mint r i a u ∉ (runWorkflow env fs0).calls) ∧
    (jsFalsyStr env.recipientAddress = true →
      (runWorkflow env fs0).logsSuccess = false ∧
      ∀ r i a u, Call.mint r i a u ∉ (runWorkflow env fs0).calls) ∧
    ((runWorkflow env fs0).logsSuccess = true →
      (runWorkflow env fs0).calls.map Call.stepKind = fullStepOrder) := by
  cases ha : env.createAttestationOutcome with
  | error e =>
      simp only [runWorkflow, ha]
      refine ⟨⟨[StepKind.persistStep, StepKind.uploadStep, StepKind.mintStep], rfl⟩,
        ?_, ?_, ?_, ?_, ?_⟩ <;> simp [Call.stepKind, fullStepOrder]
  | ok uid =>
      cases hw : env.writeFileOutcome with
      | error e =>
          simp only [runWorkflow, ha, hw]
          refine ⟨⟨[StepKind.uploadStep, StepKind.mintStep], rfl⟩,
            ?_, ?_, ?_, ?_, ?_⟩ <;> simp [Call.stepKind, fullStepOrder]
      | ok _ =>
          cases hu : (uploadToIPFS env.pinata "metadataNFTree").result with
          | error e =>
              simp only [runWorkflow, ha, hw, hu]
              refine ⟨⟨[StepKind.mintStep], rfl⟩,
                ?_, ?_, ?_, ?_, ?_⟩ <;> simp [Call.stepKind, fullStepOrder]
          | ok url =>
              cases hr : jsFalsyStr env.recipientAddress with
              | true =>
                  simp only [runWorkflow, ha, hw, hu, hr, reduceIte]
                  refine ⟨⟨[StepKind.mintStep], rfl⟩,
                    ?_, ?_, ?_, ?_, ?_⟩ <;> simp [Call.stepKind, fullStepOrder]
              | false =>
                  cases hm : env.mintNFTreeOutcome ((env.recipientAddress).getD "") 2 1 url with
                  | error e =>
                      simp only [runWorkflow, ha, hw, hu, hr, reduceIte, hm]
                      refine ⟨⟨[], rfl⟩, ?_, ?_, ?_, ?_, ?_⟩ <;>
                        simp [Call.stepKind, fullStepOrder]
                  | ok receipt =>
                      simp only [runWorkflow, ha, hw, hu, hr, reduceIte, hm]
                      refine ⟨⟨[], rfl⟩, ?_, ?_, ?_, ?_, ?_⟩ <;>
                        simp [Call.stepKind, fullStepOrder]

theorem workflow_steps_in_order_witness :
    (runWorkflow noRecipientEnv none).logsSuccess = false ∧
    Call.mint "0xRecipient" 2 1 "https://gw/Qm123" ∉ (runWorkflow noRecipientEnv none).calls :=
  ⟨((workflow_steps_in_order noRecipientEnv none).2.2.2.2.1 rfl).1,
   ((workflow_steps_in_order noRecipientEnv none).2.2.2.2.1 rfl).2 "0xRecipient" 2 1 "https://gw/Qm123"⟩

/-- Claim C2 counterexample: with `PINATA_GATEWAY_URL` unset and every
other input fine, `uploadToIPFS` does not fail with a configuration
error — it silently returns `"undefined" + cid` after one network call,
so the gateway option is not validated before the step that needs it. -/
theorem gateway_not_validated_cex :
    noGatewayEnv.gatewayURL = none ∧
    (uploadToIPFS noGatewayEnv "metadataNFTree").result = .ok "undefinedQm123" ∧
    (uploadToIPFS noGatewayEnv "metadataNFTree").networkCalls = 1 :=
  ⟨rfl, rfl, rfl⟩

/-- Claim C2 as amended: the pinning API key and secret are validated
before the upload and their absence yields the named credentials error
with zero network calls, but the gateway base URL is never validated —
when it is absent the step's result silently defaults to the string
`"undefined"` concatenated with the content identifier. -/
theorem upload_config_validation_amended (env : PinataEnv) (filePath : String) :
    ((jsFalsyStr env.pinataApiKey = true ∨ jsFalsyStr env.pinataSecretApiKey = true) →
      (uploadToIPFS env filePath).result = .error missingCredentialsMsg ∧
      (uploadToIPFS env filePath).networkCalls = 0) ∧
    (∀ cid, env.gatewayURL = none → env.fileExists filePath = true →
      jsFalsyStr env.pinataApiKey = false → jsFalsyStr env.pinataSecretApiKey = false →
      env.pinFileToIPFS filePath = .ok cid →
      (uploadToIPFS env filePath).result = .ok ("undefined" ++ cid)) := by
  constructor
  · intro hcred
    unfold uploadToIPFS
    rw [if_pos (by rcases hcred with h | h <;> simp [h])]
    exact ⟨rfl, rfl⟩
  · intro cid hg hex hk hsec hpin
    simp [uploadToIPFS, hk, hsec, hex, hpin, hg, jsStringOfOpt]

theorem upload_config_validation_amended_witness :
    ((uploadToIPFS noCredsEnv "f").result = .error missingCredentialsMsg ∧
     (uploadToIPFS noCredsEnv "f").networkCalls = 0) ∧
    (uploadToIPFS noGatewayEnv "metadataNFTree").result = .ok ("undefined" ++ "Qm123") :=
  ⟨(upload_config_validation_amended noCredsEnv "f").1 (Or.inl rfl),
   (upload_config_validation_amended noGatewayEnv "metadataNFTree").2 "Qm123"
     rfl rfl rfl rfl rfl⟩

/-- On a successful run (possible only when the attestation step returned
a UID and the write did not throw), `attestation.json` holds exactly the
pretty-printed record of that run's UID, whatever it held before. -/
theorem runWorkflow_fs_of_success (env : WorkflowEnv) (fs0 : Option String) (uid : String)
    (ha : env.createAttestationOutcome = .ok uid)
    (hs : (runWorkflow env fs0).logsSuccess = true) :
    (runWorkflow env fs0).fs = some (attestationJson uid) := by
  cases hw : env.writeFileOutcome with
  | error e => rw [runWorkflow] at hs; simp [ha, hw] at hs
  | ok _ =>
      cases hu : (uploadToIPFS env.pinata "metadataNFTree").result with
      | error e => rw [runWorkflow] at hs; simp [ha, hw, hu] at hs
      | ok url =>
          cases hr : jsFalsyStr env.recipientAddress with
          | true => rw [runWorkflow] at hs; simp [ha, hw, hu, hr] at hs
          | false =>
              cases hm : env.mintNFTreeOutcome ((env.recipientAddress).getD "") 2 1 url with
              | error e => rw [runWorkflow] at hs; simp [ha, hw, hu, hr, hm] at hs
              | ok receipt => simp [runWorkflow, ha, hw, hu, hr, hm]

/-- Claim C3: after every successful run with attestation UID `uid`, the
persisted `attestation.json` equals exactly the pretty-printed JSON record
of that UID; the file is overwritten whole, so a second successful run
leaves exactly the second run's single record whatever the file held
before. -/
theorem persisted_record_overwritten (env : WorkflowEnv) (fs0 : Option String) (uid : String)
    (ha : env.createAttestationOutcome = .ok uid)
    (hs : (runWorkflow env fs0).logsSuccess = true) :
    (runWorkflow env fs0).fs = some (attestationJson uid) ∧
    attestationJson uid =
      "\x7b\n  \"name\": \"AttestationUID\",\n  \"value\": " ++ jsonQuote uid ++ "\n\x7d" ∧
    (∀ (env2 : WorkflowEnv) (uid2 : String),
      env2.createAttestationOutcome = .ok uid2 →
      (runWorkflow env2 ((runWorkflow env fs0).fs)).logsSuccess = true →
      (runWorkflow env2 ((runWorkflow env fs0).fs)).fs = some (attestationJson uid2)) :=
  ⟨runWorkflow_fs_of_success env fs0 uid ha hs, rfl,
   fun env2 uid2 ha2 hs2 => runWorkflow_fs_of_success env2 _ uid2 ha2 hs2⟩

theorem persisted_record_overwritten_witness :
    (runWorkflow happyEnv none).fs = some (attestationJson "0xabc") ∧
    attestationJson "0xabc" =
      "\x7b\n  \"name\": \"AttestationUID\",\n  \"value\": " ++ jsonQuote "0xabc" ++ "\n\x7d" :=
  ⟨(persisted_record_overwritten happyEnv none "0xabc" rfl rfl).1,
   (persisted_record_overwritten happyEnv none "0xabc" rfl rfl).2.1⟩

/-- Claim C4 counterexample: when the attestation step throws, the error
is logged and no success is reported, but the catch block swallows the
error and the process still terminates with the default success exit
status 0 — not a failed state at the process level. -/
theorem failed_run_exits_normally_cex :
    (runWorkflow attestFailEnv none).errorLogged = some "AttestationFailed" ∧
    (runWorkflow attestFailEnv none).logsSuccess = false ∧
    (runWorkflow attestFailEnv none).exitCode = 0 :=
  ⟨rfl, rfl, rfl⟩

/-- Claim C4 as amended: every run — failed or not — terminates normally
with exit status 0, and an error is reported to the operator (logged by
the catch block) exactly when the run did not complete successfully. -/
theorem error_reported_normal_exit (env : WorkflowEnv) (fs0 : Option String) :
    (runWorkflow env fs0).exitCode = 0 ∧
    ((runWorkflow env fs0).errorLogged.isSome ↔ (runWorkflow env fs0).logsSuccess = false) := by
  cases ha : env.createAttestationOutcome with
  | error e => simp [runWorkflow, ha]
  | ok uid =>
      cases hw : env.writeFileOutcome with
      | error e => simp [runWorkflow, ha, hw]
      | ok _ =>
          cases hu : (uploadToIPFS env.pinata "metadataNFTree").result with
          | error e => simp [runWorkflow, ha, hw, hu]
          | ok url =>
              cases hr : jsFalsyStr env.recipientAddress with
              | true => simp [runWorkflow, ha, hw, hu, hr]
              | false =>
                  cases hm : env.mintNFTreeOutcome ((env.recipientAddress).getD "") 2 1 url with
                  | error e => simp [runWorkflow, ha, hw, hu, hr, hm]
                  | ok receipt => simp [runWorkflow, ha, hw, hu, hr, hm]

/-- Claim C5: both pre-network guards of `uploadToIPFS` run before any
network call: missing credentials fail with the named credentials error
and zero pinning-service invocations, and (credentials present) a missing
file fails with the file-not-found error and zero pinning-service
invocations. -/
theorem upload_guards_before_network (env : PinataEnv) (filePath : String) :
    ((jsFalsyStr env.pinataApiKey = true ∨ jsFalsyStr env.pinataSecretApiKey = true) →
      (uploadToIPFS env filePath).result = .error missingCredentialsMsg ∧
      (uploadToIPFS env filePath).networkCalls = 0) ∧
    (jsFalsyStr env.pinataApiKey = false → jsFalsyStr env.pinataSecretApiKey = false →
      env.fileExists filePath = false →
      (uploadToIPFS env filePath).result = .error (fileNotFoundMsg filePath) ∧
      (uploadToIPFS env filePath).networkCalls = 0) := by
  constructor
  · intro hcred
    unfold uploadToIPFS
    rw [if_pos (by rcases hcred with h | h <;> simp [h])]
    exact ⟨rfl, rfl⟩
  · intro hk hsec hex
    unfold uploadToIPFS
    rw [if_neg (by simp [hk, hsec]), if_pos (by simp [hex])]
    exact ⟨rfl, rfl⟩

theorem upload_guards_before_network_witness :
    ((uploadToIPFS noCredsEnv "g").result = .error missingCredentialsMsg ∧
     (uploadToIPFS noCredsEnv "g").networkCalls = 0) ∧
    ((uploadToIPFS noFileEnv "missing.txt").result = .error (fileNotFoundMsg "missing.txt") ∧
     (uploadToIPFS noFileEnv "missing.txt").networkCalls = 0) :=
  ⟨(upload_guards_before_network noCredsEnv "g").1 (Or.inl rfl),
   (upload_guards_before_network noFileEnv "missing.txt").2 rfl rfl rfl⟩

/-- Claim C6: for an existing readable file, `uploadToIPFS` returns
exactly the plain concatenation of the configured gateway base URL and
the content identifier returned by the pinning service, and the
orchestrator hands exactly that returned string, unchanged, to
`mintNFTree` as the metadata URI (with the fixed token class 2 and
quantity 1). -/
theorem upload_url_concat_handoff :
    (∀ (env : PinataEnv) (filePath g cid : String),
      jsFalsyStr env.pinataApiKey = false → jsFalsyStr env.pinataSecretApiKey = false →
      env.fileExists filePath = true → env.gatewayURL = some g →
      env.pinFileToIPFS filePath = .ok cid →
      (uploadToIPFS env filePath).result = .ok (g ++ cid)) ∧
    (∀ (env : WorkflowEnv) (fs0 : Option String) (r : String) (i a : Nat) (u : String),
      Call.mint r i a u ∈ (runWorkflow env fs0).calls →
      (uploadToIPFS env.pinata "metadataNFTree").result = .ok u ∧ i = 2 ∧ a = 1) := by
  constructor
  · intro env filePath g cid hk hsec hex hg hpin
    simp [uploadToIPFS, hk, hsec, hex, hpin, hg, jsStringOfOpt]
  · intro env fs0 r i a u hmem
    cases ha : env.createAttestationOutcome with
    | error e => rw [runWorkflow] at hmem; simp [ha] at hmem
    | ok uid =>
        cases hw : env.writeFileOutcome with
        | error e => rw [runWorkflow] at hmem; simp [ha, hw] at hmem
        | ok _ =>
            cases hu : (uploadToIPFS env.pinata "metadataNFTree").result with
            | error e => rw [runWorkflow] at hmem; simp [ha, hw, hu] at hmem
            | ok url =>
                cases hr : jsFalsyStr env.recipientAddress with
                | true => rw [runWorkflow] at hmem; simp [ha, hw, hu, hr] at hmem
                | false =>
                    rw [runWorkflow] at hmem
                    cases hm : env.mintNFTreeOutcome ((env.recipientAddress).getD "") 2 1 url with
                    | error e =>
                        simp only [ha, hw, hu, hr, reduceIte, hm] at hmem
                        simp at hmem
                        obtain ⟨hr', hi, ha', hu'⟩ := hmem
                        subst hu'
                        exact ⟨rfl, hi, ha'⟩
                    | ok receipt =>
                        simp only [ha, hw, hu, hr, reduceIte, hm] at hmem
                        simp at hmem
                        obtain ⟨hr', hi, ha', hu'⟩ := hmem
                        subst hu'
                        exact ⟨rfl, hi, ha'⟩

theorem upload_url_concat_handoff_witness :
    (uploadToIPFS okPinataEnv "metadataNFTree").result = .ok ("https://gw/" ++ "Qm123") :=
  upload_url_concat_handoff.1 okPinataEnv "metadataNFTree" "https://gw/" "Qm123"
    rfl rfl rfl rfl rfl

/-! ## Claims about the `ResearchNFT` contract -/

/-- Claim C7: from any state, two owner `mint` calls for the same token
class with non-empty URIs `u1` then `u2` both succeed; the class's history
grows by exactly two entries, the current URI becomes `u2`, and `u1` sits
at the immediately earlier history position. -/
theorem mint_twice_history (st : ContractState) (sender acct1 acct2 : String)
    (id amt1 amt2 : Nat) (u1 u2 : String)
    (hs : sender = st.owner) (h1 : u1 ≠ "") (h2 : u2 ≠ "") :
    ∃ st1 st2,
      ResearchNFT.mint st sender acct1 id amt1 u1 = .ok st1 ∧
      ResearchNFT.mint st1 sender acct2 id amt2 u2 = .ok st2 ∧
      st2.metadataHistory id = st.metadataHistory id ++ [u1, u2] ∧
      st2.tokenMetadata id = u2 ∧
      (st2.metadataHistory id).length = (st.metadataHistory id).length + 2 := by
  refine ⟨_, _, ResearchNFT.mint_ok st sender acct1 id amt1 u1 hs h1,
    ResearchNFT.mint_ok _ sender acct2 id amt2 u2 hs h2, ?_, ?_, ?_⟩
  · simp
  · simp
  · simp

theorem mint_twice_history_witness :
    ∃ st1 st2,
      ResearchNFT.mint (ResearchNFT.init "own" "base") "own" "alice" 2 1 "u1" = .ok st1 ∧
      ResearchNFT.mint st1 "own" "bob" 2 1 "u2" = .ok st2 ∧
      st2.metadataHistory 2 = (ResearchNFT.init "own" "base").metadataHistory 2 ++ ["u1", "u2"] ∧
      st2.tokenMetadata 2 = "u2" ∧
      (st2.metadataHistory 2).length = ((ResearchNFT.init "own" "base").metadataHistory 2).length + 2 :=
  mint_twice_history (ResearchNFT.init "own" "base") "own" "alice" "bob" 2 1 1 "u1" "u2"
    rfl (by decide) (by decide)

/-- Claim C8: on every reachable contract state the per-class metadata
pointer invariant holds (the history ends with the current URI, which is
non-empty once the class is minted, and a never-minted class has the
default empty URI), every transaction leads to a state where it still
holds, no transaction shortens any class's history, and a minted class
never returns to the unminted state. -/
theorem metadata_pointer_invariant (st : ContractState) (h : ResearchNFT.Reachable st) :
    ResearchNFT.MetadataInv st ∧
    ∀ op : ResearchNFT.Op,
      ResearchNFT.Reachable (ResearchNFT.applyOp st op) ∧
      ResearchNFT.MetadataInv (ResearchNFT.applyOp st op) ∧
      ∀ id : Nat,
        (st.metadataHistory id).length ≤
          ((ResearchNFT.applyOp st op).metadataHistory id).length ∧
        (ResearchNFT.Minted st id → ResearchNFT.Minted (ResearchNFT.applyOp st op) id) ∧
        (ResearchNFT.Minted (ResearchNFT.applyOp st op) id →
          (ResearchNFT.applyOp st op).tokenMetadata id ≠ "") := by
  refine ⟨ResearchNFT.reachable_inv h, fun op => ⟨.step st op h,
    ResearchNFT.reachable_inv (.step st op h), fun id => ?_⟩⟩
  obtain ⟨t, ht⟩ := ResearchNFT.applyOp_history_extends st op id
  refine ⟨by rw [ht]; simp, fun hm => ?_, fun hm' =>
    (((ResearchNFT.reachable_inv (.step st op h)) id).2 hm').2⟩
  unfold ResearchNFT.Minted at hm ⊢
  rw [ht]
  simp [hm]

theorem metadata_pointer_invariant_witness :
    ResearchNFT.MetadataInv (ResearchNFT.init "own" "base") :=
  (metadata_pointer_invariant _ (ResearchNFT.Reachable.init "own" "base")).1

/-- Claim C9: an owner call of `updateTokenMetadata` with a non-empty URI
on a class that has never been minted reverts with the "Token ID does not
exist" error, and by revert semantics causes no state change at all. -/
theorem update_unminted_fails (st : ContractState) (sender : String) (id : Nat)
    (url : String) (hre : ResearchNFT.Reachable st) (hs : sender = st.owner)
    (hu : url ≠ "") (hm : ¬ ResearchNFT.Minted st id) :
    ResearchNFT.updateTokenMetadata st sender id url =
      .error (.revert "Token ID does not exist") ∧
    ResearchNFT.applyOp st (.updateTokenMetadata sender id url) = st := by
  have hhist : st.metadataHistory id = [] := by
    by_contra hne
    exact hm hne
  have hmeta : st.tokenMetadata id = "" := ((ResearchNFT.reachable_inv hre) id).1 hhist
  have h1 : ResearchNFT.updateTokenMetadata st sender id url =
      .error (.revert "Token ID does not exist") := by
    unfold ResearchNFT.updateTokenMetadata
    rw [if_neg (by simp [hs]), if_neg hu, if_pos hmeta]
  exact ⟨h1, by simp only [ResearchNFT.applyOp, h1]⟩

theorem update_unminted_fails_witness :
    ResearchNFT.updateTokenMetadata (ResearchNFT.init "own" "b") "own" 7 "newuri" =
      .error (.revert "Token ID does not exist") ∧
    ResearchNFT.applyOp (ResearchNFT.init "own" "b") (.updateTokenMetadata "own" 7 "newuri") =
      ResearchNFT.init "own" "b" :=
  update_unminted_fails _ _ _ _ (ResearchNFT.Reachable.init "own" "b") rfl
    (by decide) (by simp [ResearchNFT.Minted, ResearchNFT.init])

/-- Claim C10: frame properties of the three mutators. `updateBaseURI`
never touches any class's metadata, history, balances or the owner, and
on an owner call sets only the global base URI; a successful `mint`
leaves the base URI, the owner, every other class's metadata pointer and
every unrelated balance unchanged; a successful `updateTokenMetadata`
leaves the base URI, the owner, all balances and every other class's
metadata pointer unchanged. -/
theorem mutator_frame_properties :
    (∀ (st : ContractState) (sender nb : String),
      (ResearchNFT.applyOp st (.updateBaseURI sender nb)).owner = st.owner ∧
      (∀ id, (ResearchNFT.applyOp st (.updateBaseURI sender nb)).tokenMetadata id =
        st.tokenMetadata id) ∧
      (∀ id, (ResearchNFT.applyOp st (.updateBaseURI sender nb)).metadataHistory id =
        st.metadataHistory id) ∧
      (∀ id a, (ResearchNFT.applyOp st (.updateBaseURI sender nb)).balances id a =
        st.balances id a) ∧
      (sender = st.owner →
        (ResearchNFT.applyOp st (.updateBaseURI sender nb)).baseURI = nb)) ∧
    (∀ (st : ContractState) (sender account : String) (id amount : Nat)
        (url : String) (st' : ContractState),
      ResearchNFT.mint st sender account id amount url = .ok st' →
      st'.baseURI = st.baseURI ∧ st'.owner = st.owner ∧
      (∀ j, j ≠ id → st'.tokenMetadata j = st.tokenMetadata j ∧
        st'.metadataHistory j = st.metadataHistory j) ∧
      (∀ j a, ¬(j = id ∧ a = account) → st'.balances j a = st.balances j a)) ∧
    (∀ (st : ContractState) (sender : String) (id : Nat) (url : String)
        (st' : ContractState),
      ResearchNFT.updateTokenMetadata st sender id url = .ok st' →
      st'.baseURI = st.baseURI ∧ st'.owner = st.owner ∧
      (∀ j a, st'.balances j a = st.balances j a) ∧
      (∀ j, j ≠ id → st'.tokenMetadata j = st.tokenMetadata j ∧
        st'.metadataHistory j = st.metadataHistory j)) := by
  refine ⟨fun st sender nb => ?_, fun st sender account id amount url st' hok => ?_,
    fun st sender id url st' hok => ?_⟩
  · simp only [ResearchNFT.applyOp]
    unfold ResearchNFT.updateBaseURI
    by_cases hs : sender ≠ st.owner
    · rw [if_pos hs]
      exact ⟨rfl, fun _ => rfl, fun _ => rfl, fun _ _ => rfl, fun h => absurd h hs⟩
    · rw [if_neg hs]
      exact ⟨rfl, fun _ => rfl, fun _ => rfl, fun _ _ => rfl, fun _ => rfl⟩
  · obtain ⟨_, _, hst'⟩ := ResearchNFT.mint_ok_iff hok
    subst hst'
    exact ⟨rfl, rfl, fun j hj => ⟨by simp [hj], by simp [hj]⟩,
      fun j a hja => by simp [hja]⟩
  · obtain ⟨_, _, _, hst'⟩ := ResearchNFT.update_ok_iff hok
    subst hst'
    exact ⟨rfl, rfl, fun _ _ => rfl, fun j hj => ⟨by simp [hj], by simp [hj]⟩⟩

theorem mutator_frame_properties_witness :
    (ResearchNFT.applyOp (ResearchNFT.init "own" "b") (.updateBaseURI "own" "nb")).metadataHistory 5 =
      (ResearchNFT.init "own" "b").metadataHistory 5 ∧
    (ResearchNFT.applyOp (ResearchNFT.init "own" "b") (.updateBaseURI "own" "nb")).baseURI = "nb" :=
  ⟨(mutator_frame_properties.1 (ResearchNFT.init "own" "b") "own" "nb").2.2.1 5,
   (mutator_frame_properties.1 (ResearchNFT.init "own" "b") "own" "nb").2.2.2.2 rfl⟩

end TreeWorkflow
